import Mathlib

/-!
psqlconnect: the interactive selection state machine of `main.go`

A shallow embedding of `main.go` of `mleonidas/psqlconnect`.

* The five package-level variables `connections`, `filteredConnections`,
  `selectedIndex`, `connectOnExit` and `filter` become the record `State`.
* Every closure registered by `keybindings` becomes a function from the state
  before the key press (and from the results of the library calls the closure
  makes) to the state after it and the way control leaves the closure.
* `gocui` (the terminal library) and the Go standard library are outside the
  repository; what they return is an input of the handler that calls them.
* `pgpass.GetFilteredConnections` lives in a package whose source is not part
  of `main.go`; every definition that calls it takes it as the parameter `gfc`.
* Go's `int` is a 64-bit integer that wraps around (`wrapInt`); a slice is a list
  whose length is an `int` value (`SliceLen`); a Go string is a text, a sequence
  of Unicode code points, and its `len` is its number of UTF-8 bytes (`strLen`).
-/

set_option linter.unusedVariables false

namespace Psqlconnect

/-! Go values -/

/-- Go `error` values, as far as `main.go` tells them apart: the sentinel
`gocui.ErrQuit`, and any other error. A nil error is `none : Option GoError`. -/
inductive GoError where
  | ErrQuit
  | other (msg : String)
deriving DecidableEq, Repr

/-- How control leaves a Go function of result type `error`: it returns nil, it
returns an error, or it stops with a run-time panic. -/
inductive Ret where
  | nil
  | err (e : GoError)
  | panicked
deriving DecidableEq, Repr

/-- The `error` result of a library call, returned as it is by the handler. -/
def Ret.ofError : Option GoError → Ret
  | none => Ret.nil
  | some e => Ret.err e

/-- Width of Go's `int` on the 64-bit platforms the program is built for. -/
def intBits : Nat := 64

/-- Largest value of Go's `int`; also the largest length a slice can have. -/
def maxInt : Int := 2 ^ (intBits - 1) - 1

/-- Go's `int` arithmetic wraps around: the representative of `x` modulo
`2 ^ intBits` in `[-2 ^ (intBits - 1), 2 ^ (intBits - 1))`. -/
def wrapInt (x : Int) : Int :=
  (x + 2 ^ (intBits - 1)) % 2 ^ intBits - 2 ^ (intBits - 1)

/-- Go's `len` of a string: its number of bytes. -/
def strLen (s : String) : Nat := s.utf8ByteSize

/-- Go's slice indexing `xs[i]` with an `int` index: `none` stands for the
run-time panic "index out of range". -/
def index {α : Type} (xs : List α) (i : Int) : Option α :=
  if 0 ≤ i then xs.get? i.toNat else none

/-! The Go standard library functions used by the commit-filter handler -/

/-- Go's `unicode.IsSpace`: the Latin-1 cases `'\t'`, `'\n'`, `'\v'`, `'\f'`,
`'\r'`, `' '`, U+0085, U+00A0, and above Latin-1 the `White_Space` table. -/
def isSpace (c : Char) : Bool :=
  let r := c.toNat
  if r ≤ 0xFF then
    r == 0x09 || r == 0x0A || r == 0x0B || r == 0x0C || r == 0x0D || r == 0x20
      || r == 0x85 || r == 0xA0
  else
    r == 0x1680 || (0x2000 ≤ r && r ≤ 0x200A) || r == 0x2028 || r == 0x2029
      || r == 0x202F || r == 0x205F || r == 0x3000

/-- Go's `strings.TrimSpace`: the string without its leading and its trailing
white space, as `unicode.IsSpace` defines it. -/
def TrimSpace (s : String) : String :=
  ⟨(s.data.dropWhile isSpace).rdropWhile isSpace⟩

/-- Go's `strings.HasSuffix`. -/
def HasSuffix (s suffix : String) : Bool :=
  suffix.data.isSuffixOf s.data

/-- Go's `strings.TrimSuffix`: `s` without the given trailing string, and `s`
itself when it does not end with it. -/
def TrimSuffix (s suffix : String) : String :=
  if HasSuffix s suffix then ⟨s.data.take (s.data.length - suffix.data.length)⟩ else s

/-! The data model -/

/-- Modelled from the spec: the record type `pgpass.Connection`, declared in the
package `pgpass` and not in `main.go`; the spec lists its fields as host, port,
database, username and secret. `main.go` never reads a field. -/
structure Connection where
  host : String
  port : String
  database : String
  username : String
  secret : String
deriving DecidableEq, Repr

/-- The package-level variables of `main.go` (lines 16-23), the logger apart. -/
structure State where
  connections : List Connection
  filteredConnections : List Connection
  selectedIndex : Int
  connectOnExit : Bool
  filter : String
deriving DecidableEq, Repr

/-- The variables as `main` leaves them before the event loop starts:
the initialisers of lines 19-21 and the assignments of lines 59 and 63. -/
def initState (loaded : List Connection) : State :=
  { connections := loaded
    filteredConnections := loaded
    selectedIndex := 0
    connectOnExit := false
    filter := "" }

/-! The handlers registered by `keybindings` -/

/-- Ctrl-C (lines 99-101). -/
def quitHandler (s : State) : State × Ret :=
  (s, Ret.err GoError.ErrQuit)

/-- Arrow up (lines 103-109). `v.MoveCursor` returns nothing. -/
def arrowUpHandler (s : State) : State × Ret :=
  if s.selectedIndex ≠ 0 then
    ({ s with selectedIndex := wrapInt (s.selectedIndex - 1) }, Ret.nil)
  else
    (s, Ret.nil)

/-- Key `k` (lines 111-117). -/
def kHandler (s : State) : State × Ret :=
  if s.selectedIndex ≠ 0 then
    ({ s with selectedIndex := wrapInt (s.selectedIndex - 1) }, Ret.nil)
  else
    (s, Ret.nil)

/-- Arrow down (lines 119-125). -/
def arrowDownHandler (s : State) : State × Ret :=
  if s.selectedIndex ≠ (s.filteredConnections.length : Int) - 1 then
    ({ s with selectedIndex := wrapInt (s.selectedIndex + 1) }, Ret.nil)
  else
    (s, Ret.nil)

/-- Key `j` (lines 127-133). -/
def jHandler (s : State) : State × Ret :=
  if s.selectedIndex ≠ (s.filteredConnections.length : Int) - 1 then
    ({ s with selectedIndex := wrapInt (s.selectedIndex + 1) }, Ret.nil)
  else
    (s, Ret.nil)

/-- Key `f` (lines 135-138): `renderErr` is what `ui.RenderFilterView` returns. -/
def fHandler (s : State) (renderErr : Option GoError) : State × Ret :=
  (s, Ret.ofError renderErr)

/-- Enter in the connections view (lines 140-146). -/
def enterHandler (s : State) : State × Ret :=
  if 0 < s.filteredConnections.length then
    ({ s with connectOnExit := true }, Ret.err GoError.ErrQuit)
  else
    (s, Ret.nil)

/-- Key `r` (lines 148-165). `loaded` and `loadErr` are the two results of
`pgpass.LoadConnectionsFromPgpass`, `cursorErr` is the result of `v.SetCursor`.
Line 149 assigns both results before line 151 looks at the error. -/
def rHandler (gfc : List Connection → String → List Connection) (s : State)
    (loaded : List Connection) (loadErr : Option GoError) (cursorErr : Option GoError) :
    State × Ret :=
  let s1 := { s with connections := loaded }
  match loadErr with
  | some e => (s1, Ret.err e)
  | none =>
    let s2 :=
      if 0 < strLen s1.filter then
        { s1 with filteredConnections := gfc s1.connections s1.filter }
      else
        { s1 with filteredConnections := s1.connections }
    let s3 := { s2 with selectedIndex := 0 }
    (s3, Ret.ofError cursorErr)

/-- Enter in the filter view (lines 167-185). `buffer` is `v.Buffer()`,
`deleteErr` the result of `g.DeleteView`, `viewFound` tells whether
`g.SetCurrentView` returned a view rather than a nil pointer (its error is
overwritten on line 183), `cursorErr` is the result of `cv.SetCursor`, which
dereferences `cv`. The fields `g.Highlight` and `g.SelFgColor` belong to the
library and are not part of the state. -/
def filterEnterHandler (gfc : List Connection → String → List Connection) (s : State)
    (buffer : String) (deleteErr : Option GoError) (viewFound : Bool)
    (cursorErr : Option GoError) : State × Ret :=
  match deleteErr with
  | some e => (s, Ret.err e)
  | none =>
    let s1 := { s with filter := TrimSuffix (TrimSpace buffer) "\n" }
    let s2 :=
      if 0 < strLen s1.filter then
        { s1 with filteredConnections := gfc s1.connections s1.filter }
      else
        { s1 with filteredConnections := s1.connections }
    let s3 := { s2 with selectedIndex := 0 }
    if viewFound then (s3, Ret.ofError cursorErr) else (s3, Ret.panicked)

/-- The manager function `layout` (lines 86-96): the three render results are
assigned to the same variable, the last one is returned. -/
def layout (s : State) (headerErr connectionsErr instructionsErr : Option GoError) :
    State × Ret :=
  let err := headerErr
  let err := connectionsErr
  let err := instructionsErr
  match err with
  | some e => (s, Ret.err e)
  | none => (s, Ret.nil)

/-- The results of the nine `g.SetKeybinding` calls of `keybindings`, in the
order of the source. -/
structure KeyResults where
  ctrlC : Option GoError
  arrowUp : Option GoError
  keyK : Option GoError
  arrowDown : Option GoError
  keyJ : Option GoError
  keyF : Option GoError
  enter : Option GoError
  keyR : Option GoError
  filterEnter : Option GoError
deriving DecidableEq, Repr

/-- The function `keybindings` (lines 98-188): each registration assigns its
result to the one variable `err`, which is returned on line 187. -/
def keybindings (r : KeyResults) : Option GoError :=
  let err := r.ctrlC
  let err := r.arrowUp
  let err := r.keyK
  let err := r.arrowDown
  let err := r.keyJ
  let err := r.keyF
  let err := r.enter
  let err := r.keyR
  let err := r.filterEnter
  err

/-! The event loop and `main` -/

/-- One callback run by the event loop, with the results of the library calls
made inside it. -/
inductive Event where
  | ctrlC
  | arrowUp
  | keyK
  | arrowDown
  | keyJ
  | keyF (renderErr : Option GoError)
  | enter
  | keyR (loaded : List Connection) (loadErr : Option GoError) (cursorErr : Option GoError)
  | filterEnter (buffer : String) (deleteErr : Option GoError) (viewFound : Bool)
      (cursorErr : Option GoError)
  | layout (headerErr connectionsErr instructionsErr : Option GoError)
deriving DecidableEq, Repr

/-- The callback an event runs. -/
def handle (gfc : List Connection → String → List Connection) (s : State) :
    Event → State × Ret
  | Event.ctrlC => quitHandler s
  | Event.arrowUp => arrowUpHandler s
  | Event.keyK => kHandler s
  | Event.arrowDown => arrowDownHandler s
  | Event.keyJ => jHandler s
  | Event.keyF e => fHandler s e
  | Event.enter => enterHandler s
  | Event.keyR l e c => rHandler gfc s l e c
  | Event.filterEnter b d v c => filterEnterHandler gfc s b d v c
  | Event.layout a b c => layout s a b c

/-- The event loop `g.MainLoop()`: callbacks run one after the other, and the
loop stops with the first error (or panic) a callback leaves with. `Ret.nil`
says that every callback so far returned nil, so the loop is still waiting. -/
def MainLoop (gfc : List Connection → String → List Connection) :
    State → List Event → State × Ret
  | s, [] => (s, Ret.nil)
  | s, ev :: evs =>
    match handle gfc s ev with
    | (s1, Ret.nil) => MainLoop gfc s1 evs
    | (s1, r) => (s1, r)

/-- The state after the callbacks of all the events, whatever they return: every
state the event loop can be in is one of these. -/
def applyEvents (gfc : List Connection → String → List Connection) (s : State)
    (evs : List Event) : State :=
  evs.foldl (fun st ev => (handle gfc st ev).1) s

/-- How the process ends. -/
inductive Exit where
  | fatal (msg : String) (e : GoError)
  | connect (c : Connection)
  | silent
  | crashed
  | waiting
deriving DecidableEq, Repr

/-- Lines 76-83 of `main`: what happens once `g.MainLoop()` has returned `err`
with the variables in state `s`. -/
def afterMainLoop (s : State) (err : Option GoError) : Exit :=
  if err ≠ none ∧ err ≠ some GoError.ErrQuit then
    Exit.fatal "failed to run the mainloop" (err.getD GoError.ErrQuit)
  else if s.connectOnExit then
    match index s.filteredConnections s.selectedIndex with
    | some c => Exit.connect c
    | none => Exit.crashed
  else
    Exit.silent

/-- The function `main` (lines 55-84). `loaded`, `loadErr` are the results of the
first load, `guiErr` the error of `gocui.NewGui`, `keys` the results of the
registrations, `evs` the callbacks the event loop runs. -/
def main (gfc : List Connection → String → List Connection)
    (loaded : List Connection) (loadErr : Option GoError) (guiErr : Option GoError)
    (keys : KeyResults) (evs : List Event) : Exit :=
  match loadErr with
  | some e => Exit.fatal "failed to load the connection pgpass" e
  | none =>
    match guiErr with
    | some e => Exit.fatal "failed to setup gui" e
    | none =>
      match keybindings keys with
      | some e => Exit.fatal "failed to setup keybindings" e
      | none =>
        match MainLoop gfc (initState loaded) evs with
        | (_, Ret.nil) => Exit.waiting
        | (_, Ret.panicked) => Exit.crashed
        | (s, Ret.err e) => afterMainLoop s (some e)

/-! Well-formed inputs -/

/-- A Go slice has an `int` length. -/
def SliceLen (xs : List Connection) : Prop := (xs.length : Int) ≤ maxInt

instance (xs : List Connection) : Decidable (SliceLen xs) := by
  unfold SliceLen; infer_instance

/-- The lists an event carries are Go slices. -/
def Event.WellFormed : Event → Prop
  | Event.keyR l _ _ => SliceLen l
  | _ => True

instance (ev : Event) : Decidable ev.WellFormed := by
  cases ev <;> unfold Event.WellFormed <;> infer_instance

/-- The filter function returns Go slices. -/
def FilterWellFormed (gfc : List Connection → String → List Connection) : Prop :=
  ∀ cs q, SliceLen cs → SliceLen (gfc cs q)

/-! The words of the specification -/

/-- The trimming the specification describes for the filter text: only trailing
white space and newlines are removed. -/
def specTrimTrailing (buffer : String) : String :=
  ⟨buffer.data.rdropWhile isSpace⟩

/-- The cursor rule the specification gives for "move down":
`min(len - 1, cursorIndex + 1)` when that is a step of one, no move otherwise. -/
def specMoveDown (len : Int) (cursor : Int) : Int :=
  if cursor + 1 < len then cursor + 1 else cursor

/-! Concrete data used in the examples -/

/-- First line of the specification's scenario A. -/
def db1 : Connection := ⟨"db1", "5432", "appdb", "alice", "secretA"⟩

/-- Second line of the specification's scenario A. -/
def db2 : Connection := ⟨"db2", "5432", "appdb", "bob", "secretB"⟩

/-- A filter function for the examples: the connections whose host is the query. -/
def hostFilter (cs : List Connection) (q : String) : List Connection :=
  cs.filter (fun c => c.host == q)

/-! Auxiliary facts -/

theorem wrapInt_eq_self (x : Int) (hlo : -(maxInt + 1) ≤ x) (hhi : x ≤ maxInt) :
    wrapInt x = x := by
  unfold wrapInt
  unfold maxInt at hlo hhi
  norm_num [intBits] at hlo hhi ⊢
  rw [Int.emod_eq_of_lt (by omega) (by omega)]
  omega

theorem strLen_pos_iff (s : String) : 0 < strLen s ↔ s ≠ "" := by
  obtain ⟨cs⟩ := s
  cases cs with
  | nil => simp [strLen, String.utf8ByteSize, String.utf8ByteSize.go]
  | cons c cs =>
    have hc : 0 < c.utf8Size := Char.utf8Size_pos c
    have hne : (String.mk (c :: cs)) ≠ "" := by
      intro h
      have := congrArg String.data h
      simp at this
    simp only [strLen, String.utf8ByteSize, String.utf8ByteSize.go, ne_eq, hne,
      not_false_eq_true, iff_true]
    omega

theorem isSpace_newline : isSpace '\n' = true := by decide

/-- The result of `TrimSpace` never ends with a newline, so the `TrimSuffix` of
line 173 returns its argument. -/
theorem TrimSuffix_TrimSpace (buffer : String) :
    TrimSuffix (TrimSpace buffer) "\n" = TrimSpace buffer := by
  unfold TrimSuffix
  have hno : HasSuffix (TrimSpace buffer) "\n" = false := by
    by_contra hc
    have hs : HasSuffix (TrimSpace buffer) "\n" = true := by simpa using hc
    unfold HasSuffix TrimSpace at hs
    have hsuf : ['\n'] <:+ (buffer.data.dropWhile isSpace).rdropWhile isSpace := by
      simpa using hs
    obtain ⟨t, ht⟩ := hsuf
    have hne : (buffer.data.dropWhile isSpace).rdropWhile isSpace ≠ [] := by
      rw [← ht]; simp
    have hlast := List.rdropWhile_last_not isSpace (buffer.data.dropWhile isSpace) hne
    have hl : ((buffer.data.dropWhile isSpace).rdropWhile isSpace).getLast hne = '\n' := by
      simp [← ht]
    rw [hl] at hlast
    exact hlast isSpace_newline
  simp [hno]

/-! The cursor invariant -/

/-- The cursor is a valid index whenever there is something to point at. -/
def CursorInRange (s : State) : Prop :=
  s.filteredConnections ≠ [] →
    0 ≤ s.selectedIndex ∧ s.selectedIndex ≤ (s.filteredConnections.length : Int) - 1

/-- The invariant of the event loop: both lists are Go slices and the cursor is
in range. -/
def Inv (s : State) : Prop :=
  SliceLen s.connections ∧ SliceLen s.filteredConnections ∧ CursorInRange s

theorem cursorInRange_zero (s : State) (h0 : s.selectedIndex = 0) : CursorInRange s := by
  intro hne
  have hpos : 0 < s.filteredConnections.length := List.length_pos.mpr hne
  rw [h0]
  omega

theorem Inv_initState (loaded : List Connection) (hl : SliceLen loaded) :
    Inv (initState loaded) :=
  ⟨hl, hl, cursorInRange_zero _ rfl⟩

theorem Inv_moveUp (s : State) (hs : Inv s) :
    Inv { s with selectedIndex := wrapInt (s.selectedIndex - 1) } ∨ s.selectedIndex = 0 := by
  by_cases h0 : s.selectedIndex = 0
  · exact Or.inr h0
  · left
    obtain ⟨hc, hf, hcur⟩ := hs
    refine ⟨hc, hf, ?_⟩
    intro hne
    obtain ⟨hlo, hhi⟩ := hcur hne
    have hf2 : (s.filteredConnections.length : Int) ≤ maxInt := hf
    have hmax : (0 : Int) ≤ maxInt := by unfold maxInt; norm_num [intBits]
    have hw : wrapInt (s.selectedIndex - 1) = s.selectedIndex - 1 :=
      wrapInt_eq_self _ (by omega) (by omega)
    show 0 ≤ wrapInt (s.selectedIndex - 1) ∧
      wrapInt (s.selectedIndex - 1) ≤ (s.filteredConnections.length : Int) - 1
    rw [hw]
    omega

theorem Inv_moveDown (s : State) (hs : Inv s) :
    Inv { s with selectedIndex := wrapInt (s.selectedIndex + 1) } ∨
      s.selectedIndex = (s.filteredConnections.length : Int) - 1 := by
  by_cases h0 : s.selectedIndex = (s.filteredConnections.length : Int) - 1
  · exact Or.inr h0
  · left
    obtain ⟨hc, hf, hcur⟩ := hs
    refine ⟨hc, hf, ?_⟩
    intro hne
    obtain ⟨hlo, hhi⟩ := hcur hne
    have hf2 : (s.filteredConnections.length : Int) ≤ maxInt := hf
    have hmax : (0 : Int) ≤ maxInt := by unfold maxInt; norm_num [intBits]
    have hw : wrapInt (s.selectedIndex + 1) = s.selectedIndex + 1 :=
      wrapInt_eq_self _ (by omega) (by omega)
    show 0 ≤ wrapInt (s.selectedIndex + 1) ∧
      wrapInt (s.selectedIndex + 1) ≤ (s.filteredConnections.length : Int) - 1
    rw [hw]
    omega

/-- Every callback keeps the invariant. -/
theorem handle_preserves_Inv (gfc : List Connection → String → List Connection)
    (hg : FilterWellFormed gfc) (s : State) (ev : Event) (hev : ev.WellFormed)
    (hs : Inv s) : Inv (handle gfc s ev).1 := by
  cases ev with
  | ctrlC => exact hs
  | arrowUp =>
    rcases Inv_moveUp s hs with h | h
    · by_cases h0 : s.selectedIndex = 0
      · simpa [handle, arrowUpHandler, h0] using hs
      · simpa [handle, arrowUpHandler, h0] using h
    · simpa [handle, arrowUpHandler, h] using hs
  | keyK =>
    rcases Inv_moveUp s hs with h | h
    · by_cases h0 : s.selectedIndex = 0
      · simpa [handle, kHandler, h0] using hs
      · simpa [handle, kHandler, h0] using h
    · simpa [handle, kHandler, h] using hs
  | arrowDown =>
    rcases Inv_moveDown s hs with h | h
    · by_cases h0 : s.selectedIndex = (s.filteredConnections.length : Int) - 1
      · simpa [handle, arrowDownHandler, h0] using hs
      · simpa [handle, arrowDownHandler, h0] using h
    · simpa [handle, arrowDownHandler, h] using hs
  | keyJ =>
    rcases Inv_moveDown s hs with h | h
    · by_cases h0 : s.selectedIndex = (s.filteredConnections.length : Int) - 1
      · simpa [handle, jHandler, h0] using hs
      · simpa [handle, jHandler, h0] using h
    · simpa [handle, jHandler, h] using hs
  | keyF e => exact hs
  | enter =>
    by_cases h0 : 0 < s.filteredConnections.length
    · simpa [handle, enterHandler, h0] using hs
    · simpa [handle, enterHandler, h0] using hs
  | keyR l e c =>
    have hl : SliceLen l := hev
    cases e with
    | some e => exact ⟨hl, hs.2.1, hs.2.2⟩
    | none =>
      by_cases hq : 0 < strLen s.filter
      · simp only [handle, rHandler, hq, if_true]
        exact ⟨hl, hg _ _ hl, cursorInRange_zero _ rfl⟩
      · simp only [handle, rHandler, hq, if_false]
        exact ⟨hl, hl, cursorInRange_zero _ rfl⟩
  | filterEnter b d v c =>
    cases d with
    | some e => exact hs
    | none =>
      by_cases hq : 0 < strLen (TrimSuffix (TrimSpace b) "\n")
      · cases v <;> simp only [handle, filterEnterHandler, hq, if_true] <;>
          exact ⟨hs.1, hg _ _ hs.1, cursorInRange_zero _ rfl⟩
      · cases v <;> simp only [handle, filterEnterHandler, hq, if_false] <;>
          exact ⟨hs.1, hs.1, cursorInRange_zero _ rfl⟩
  | layout a b c =>
    cases c <;> exact hs

theorem applyEvents_preserves_Inv (gfc : List Connection → String → List Connection)
    (hg : FilterWellFormed gfc) (evs : List Event) :
    ∀ s : State, (∀ ev ∈ evs, ev.WellFormed) → Inv s → Inv (applyEvents gfc s evs) := by
  induction evs with
  | nil => intro s _ hs; exact hs
  | cons ev evs ih =>
    intro s hev hs
    have h1 : Inv (handle gfc s ev).1 :=
      handle_preserves_Inv gfc hg s ev (hev ev (List.mem_cons_self _ _)) hs
    exact ih _ (fun e he => hev e (List.mem_cons_of_mem _ he)) h1

/-! The event loop -/

theorem MainLoop_cons_nil (gfc : List Connection → String → List Connection)
    (s s1 : State) (ev : Event) (evs : List Event) (h : handle gfc s ev = (s1, Ret.nil)) :
    MainLoop gfc s (ev :: evs) = MainLoop gfc s1 evs := by
  simp [MainLoop, h]

theorem MainLoop_cons_stop (gfc : List Connection → String → List Connection)
    (s s1 : State) (r : Ret) (ev : Event) (evs : List Event)
    (h : handle gfc s ev = (s1, r)) (hr : r ≠ Ret.nil) :
    MainLoop gfc s (ev :: evs) = (s1, r) := by
  cases r with
  | nil => exact absurd rfl hr
  | err e => simp [MainLoop, h]
  | panicked => simp [MainLoop, h]

/-- While the loop is running its state is the state after all callbacks. -/
theorem MainLoop_running_state (gfc : List Connection → String → List Connection)
    (evs : List Event) :
    ∀ s s1 : State, MainLoop gfc s evs = (s1, Ret.nil) → s1 = applyEvents gfc s evs := by
  induction evs with
  | nil =>
    intro s s1 h
    simp [MainLoop] at h
    simp [applyEvents, h]
  | cons ev evs ih =>
    intro s s1 h
    rcases hh : handle gfc s ev with ⟨s2, r⟩
    by_cases hr : r = Ret.nil
    · subst hr
      rw [MainLoop_cons_nil gfc s s2 ev evs hh] at h
      have := ih s2 s1 h
      simp only [applyEvents, List.foldl_cons, hh] at this ⊢
      exact this
    · rw [MainLoop_cons_stop gfc s s2 r ev evs hh hr] at h
      exact absurd (congrArg Prod.snd h) hr

/-- Events after a running loop are handled from the state it has reached. -/
theorem MainLoop_append (gfc : List Connection → String → List Connection)
    (pre : List Event) :
    ∀ (s s1 : State) (evs : List Event), MainLoop gfc s pre = (s1, Ret.nil) →
      MainLoop gfc s (pre ++ evs) = MainLoop gfc s1 evs := by
  induction pre with
  | nil =>
    intro s s1 evs h
    simp [MainLoop] at h
    simp [h]
  | cons ev pre ih =>
    intro s s1 evs h
    rcases hh : handle gfc s ev with ⟨s2, r⟩
    by_cases hr : r = Ret.nil
    · subst hr
      rw [MainLoop_cons_nil gfc s s2 ev pre hh] at h
      rw [List.cons_append, MainLoop_cons_nil gfc s s2 ev (pre ++ evs) hh]
      exact ih s2 s1 evs h
    · rw [MainLoop_cons_stop gfc s s2 r ev pre hh hr] at h
      exact absurd (congrArg Prod.snd h) hr

/-- Only Enter on a non-empty list changes `connectOnExit`. -/
theorem handle_connectOnExit (gfc : List Connection → String → List Connection)
    (s : State) (ev : Event) :
    (handle gfc s ev).1.connectOnExit = s.connectOnExit ∨
      (ev = Event.enter ∧ 0 < s.filteredConnections.length ∧
        handle gfc s ev = ({ s with connectOnExit := true }, Ret.err GoError.ErrQuit)) := by
  cases ev with
  | ctrlC => exact Or.inl rfl
  | arrowUp =>
    by_cases h0 : s.selectedIndex = 0 <;> simp [handle, arrowUpHandler, h0]
  | keyK =>
    by_cases h0 : s.selectedIndex = 0 <;> simp [handle, kHandler, h0]
  | arrowDown =>
    by_cases h0 : s.selectedIndex = (s.filteredConnections.length : Int) - 1 <;>
      simp [handle, arrowDownHandler, h0]
  | keyJ =>
    by_cases h0 : s.selectedIndex = (s.filteredConnections.length : Int) - 1 <;>
      simp [handle, jHandler, h0]
  | keyF e => exact Or.inl rfl
  | enter =>
    by_cases h0 : 0 < s.filteredConnections.length
    · right
      exact ⟨rfl, h0, by simp [handle, enterHandler, h0]⟩
    · left
      simp [handle, enterHandler, h0]
  | keyR l e c =>
    left
    cases e with
    | some e => rfl
    | none =>
      by_cases hq : 0 < strLen s.filter <;> simp [handle, rHandler, hq]
  | filterEnter b d v c =>
    left
    cases d with
    | some e => rfl
    | none =>
      by_cases hq : 0 < strLen (TrimSuffix (TrimSpace b) "\n") <;> cases v <;>
        simp [handle, filterEnterHandler, hq]
  | layout a b c =>
    left
    cases c <;> rfl

/-- If the loop has set `connectOnExit`, it stopped at an Enter key pressed on a
non-empty list, with the quit signal. -/
theorem MainLoop_confirm (gfc : List Connection → String → List Connection)
    (evs : List Event) :
    ∀ s : State, s.connectOnExit = false →
      (MainLoop gfc s evs).1.connectOnExit = true →
      ∃ (pre rest : List Event) (s1 : State),
        evs = pre ++ Event.enter :: rest ∧
        MainLoop gfc s pre = (s1, Ret.nil) ∧
        0 < s1.filteredConnections.length ∧
        MainLoop gfc s evs = ({ s1 with connectOnExit := true }, Ret.err GoError.ErrQuit) := by
  induction evs with
  | nil =>
    intro s hs h
    simp [MainLoop, hs] at h
  | cons ev evs ih =>
    intro s hs h
    rcases hh : handle gfc s ev with ⟨s2, r⟩
    rcases handle_connectOnExit gfc s ev with hc | ⟨hev, hlen, hret⟩
    · rw [hh] at hc
      have hs2 : s2.connectOnExit = false := by simpa [hs] using hc
      by_cases hr : r = Ret.nil
      · subst hr
        rw [MainLoop_cons_nil gfc s s2 ev evs hh] at h ⊢
        obtain ⟨pre, rest, s1, he, hrun, hlen, hfin⟩ := ih s2 hs2 h
        refine ⟨ev :: pre, rest, s1, by simp [he], ?_, hlen, hfin⟩
        rw [MainLoop_cons_nil gfc s s2 ev pre hh]
        exact hrun
      · rw [MainLoop_cons_stop gfc s s2 r ev evs hh hr] at h
        simp [hs2] at h
    · subst hev
      refine ⟨[], evs, s, rfl, rfl, hlen, ?_⟩
      exact MainLoop_cons_stop gfc s _ _ Event.enter evs hret (by simp)

theorem hostFilter_wellFormed : FilterWellFormed hostFilter := by
  intro cs q hcs
  unfold SliceLen at hcs ⊢
  have h : (hostFilter cs q).length ≤ cs.length := List.length_filter_le _ _
  omega

theorem index_of_inRange (xs : List Connection) (i : Int) (h0 : 0 ≤ i)
    (h1 : i ≤ (xs.length : Int) - 1) : ∃ c, index xs i = some c := by
  have hlt : i.toNat < xs.length := by omega
  refine ⟨xs.get ⟨i.toNat, hlt⟩, ?_⟩
  simp [index, h0, List.get?_eq_get hlt]

/-- A browsing session for the examples: navigation past both ends, a filter
that keeps one connection, a reload that succeeds, one that fails. -/
def sampleEvents : List Event :=
  [Event.arrowUp, Event.arrowDown, Event.keyJ, Event.keyJ,
   Event.filterEnter " db2\n" none true none, Event.keyJ, Event.keyK,
   Event.keyR [db2, db1, db2] none none, Event.arrowDown,
   Event.keyR [] (some (GoError.other "open .pgpass: no such file")) none]

/-- A session that ends with Enter on the second of two connections. -/
def confirmEvents : List Event :=
  [Event.keyJ, Event.layout none none none, Event.enter, Event.arrowUp]

/-! The claims -/

/-- C1, cursor bounds invariant. From the initial state, after the callbacks of
any finite sequence of events (move up, move down, commit filter with any buffer,
reload with any load result, and every other callback as well), a non-empty
`filteredConnections` has `0 ≤ selectedIndex ≤ len(filteredConnections) - 1`.
The lists are Go slices: their lengths are `int` values. -/
theorem cursor_bounds_invariant (gfc : List Connection → String → List Connection)
    (hg : FilterWellFormed gfc) (loaded : List Connection) (hl : SliceLen loaded)
    (evs : List Event) (hev : ∀ ev ∈ evs, ev.WellFormed)
    (hne : (applyEvents gfc (initState loaded) evs).filteredConnections ≠ []) :
    0 ≤ (applyEvents gfc (initState loaded) evs).selectedIndex ∧
      (applyEvents gfc (initState loaded) evs).selectedIndex ≤
        ((applyEvents gfc (initState loaded) evs).filteredConnections.length : Int) - 1 :=
  (applyEvents_preserves_Inv gfc hg evs _ hev (Inv_initState loaded hl)).2.2 hne

set_option maxRecDepth 100000 in
/-- Witness of C1 on the sample session, which ends on the two connections the
filter `db2` keeps of the reloaded list, with the cursor on the second. -/
theorem cursor_bounds_invariant_witness :
    (applyEvents hostFilter (initState [db1, db2]) sampleEvents).filteredConnections
        = [db2, db2] ∧
      (applyEvents hostFilter (initState [db1, db2]) sampleEvents).selectedIndex = 1 ∧
      (0 ≤ (applyEvents hostFilter (initState [db1, db2]) sampleEvents).selectedIndex ∧
        (applyEvents hostFilter (initState [db1, db2]) sampleEvents).selectedIndex ≤
          ((applyEvents hostFilter (initState [db1, db2])
            sampleEvents).filteredConnections.length : Int) - 1) :=
  ⟨by decide, by decide,
    cursor_bounds_invariant hostFilter hostFilter_wellFormed [db1, db2] (by decide)
      sampleEvents (by decide) (by decide)⟩

/-- C2, exit selection is well defined. Whenever the event loop started from the
initial state has left `connectOnExit = true`, it has stopped with the quit
signal, `filteredConnections` is non-empty, `selectedIndex` is a valid index of
it, the access `filteredConnections[selectedIndex]` of `main` yields a connection
`c`, `main` hands `c` to the connect action, and `c` is the element under the
cursor in the state in which Enter was pressed. -/
theorem exit_selection_well_defined (gfc : List Connection → String → List Connection)
    (hg : FilterWellFormed gfc) (loaded : List Connection) (hl : SliceLen loaded)
    (evs : List Event) (hev : ∀ ev ∈ evs, ev.WellFormed) (t : State) (r : Ret)
    (hrun : MainLoop gfc (initState loaded) evs = (t, r))
    (hc : t.connectOnExit = true) :
    r = Ret.err GoError.ErrQuit ∧
      t.filteredConnections ≠ [] ∧
      0 ≤ t.selectedIndex ∧
      t.selectedIndex ≤ (t.filteredConnections.length : Int) - 1 ∧
      ∃ c : Connection,
        index t.filteredConnections t.selectedIndex = some c ∧
        (∀ keys : KeyResults, keybindings keys = none →
          main gfc loaded none none keys evs = Exit.connect c) ∧
        ∃ (pre rest : List Event) (s1 : State),
          evs = pre ++ Event.enter :: rest ∧
          MainLoop gfc (initState loaded) pre = (s1, Ret.nil) ∧
          index s1.filteredConnections s1.selectedIndex = some c := by
  have hc2 : (MainLoop gfc (initState loaded) evs).1.connectOnExit = true := by
    rw [hrun]; exact hc
  obtain ⟨pre, rest, s1, he, hpre, hlen, hfin⟩ :=
    MainLoop_confirm gfc evs (initState loaded) rfl hc2
  rw [hrun] at hfin
  have ht : t = { s1 with connectOnExit := true } := congrArg Prod.fst hfin
  have hr : r = Ret.err GoError.ErrQuit := congrArg Prod.snd hfin
  have hs1 : s1 = applyEvents gfc (initState loaded) pre :=
    MainLoop_running_state gfc pre _ _ hpre
  have hwf : ∀ ev ∈ pre, ev.WellFormed := by
    intro ev hmem
    exact hev ev (by rw [he]; exact List.mem_append_left _ hmem)
  have hinv : Inv s1 := by
    rw [hs1]
    exact applyEvents_preserves_Inv gfc hg pre _ hwf (Inv_initState loaded hl)
  have hne : s1.filteredConnections ≠ [] := List.length_pos.mp hlen
  obtain ⟨hlo, hhi⟩ := hinv.2.2 hne
  obtain ⟨c, hcx⟩ := index_of_inRange s1.filteredConnections s1.selectedIndex hlo hhi
  subst ht
  subst hr
  refine ⟨rfl, hne, hlo, hhi, c, hcx, ?_, pre, rest, s1, he, hpre, hcx⟩
  intro keys hk
  have hcx2 : index s1.filteredConnections s1.selectedIndex = some c := hcx
  simp [main, hk, hrun, afterMainLoop, hcx2]

/-- Witness of C2: Enter on the second of two connections hands `db2` over. -/
theorem exit_selection_well_defined_witness :
    MainLoop hostFilter (initState [db1, db2]) confirmEvents
        = ({ initState [db1, db2] with selectedIndex := 1, connectOnExit := true },
            Ret.err GoError.ErrQuit) ∧
      ∃ c : Connection,
        index [db1, db2] 1 = some c ∧
        (∀ keys : KeyResults, keybindings keys = none →
          main hostFilter [db1, db2] none none keys confirmEvents = Exit.connect c) ∧
        ∃ (pre rest : List Event) (s1 : State),
          confirmEvents = pre ++ Event.enter :: rest ∧
          MainLoop hostFilter (initState [db1, db2]) pre = (s1, Ret.nil) ∧
          index s1.filteredConnections s1.selectedIndex = some c :=
  ⟨by decide,
    (exit_selection_well_defined hostFilter hostFilter_wellFormed [db1, db2] (by decide)
      confirmEvents (by decide)
      { initState [db1, db2] with selectedIndex := 1, connectOnExit := true }
      (Ret.err GoError.ErrQuit) (by decide) rfl).2.2.2.2⟩

/-- C3, commit filter. When `g.DeleteView` succeeds, the commit-filter handler
stores the trimmed buffer as the filter text, sets `filteredConnections` to
`GetFilteredConnections(connections, filter)` when the stored text is non-empty
and to `connections` when it is empty, sets `selectedIndex` to 0 and leaves
`connections` and `connectOnExit` as they were; this holds whatever the later
library calls of the handler return. -/
theorem commit_filter_state (gfc : List Connection → String → List Connection)
    (s : State) (buffer : String) (viewFound : Bool) (cursorErr : Option GoError) :
    (filterEnterHandler gfc s buffer none viewFound cursorErr).1.filter
        = TrimSuffix (TrimSpace buffer) "\n" ∧
      ((filterEnterHandler gfc s buffer none viewFound cursorErr).1.filter ≠ "" →
        (filterEnterHandler gfc s buffer none viewFound cursorErr).1.filteredConnections
          = gfc s.connections
              (filterEnterHandler gfc s buffer none viewFound cursorErr).1.filter) ∧
      ((filterEnterHandler gfc s buffer none viewFound cursorErr).1.filter = "" →
        (filterEnterHandler gfc s buffer none viewFound cursorErr).1.filteredConnections
          = s.connections) ∧
      (filterEnterHandler gfc s buffer none viewFound cursorErr).1.selectedIndex = 0 ∧
      (filterEnterHandler gfc s buffer none viewFound cursorErr).1.connections
        = s.connections ∧
      (filterEnterHandler gfc s buffer none viewFound cursorErr).1.connectOnExit
        = s.connectOnExit := by
  by_cases hq : 0 < strLen (TrimSuffix (TrimSpace buffer) "\n")
  · have hne : TrimSuffix (TrimSpace buffer) "\n" ≠ "" := (strLen_pos_iff _).mp hq
    cases viewFound <;> simp [filterEnterHandler, hq, hne]
  · have he : TrimSuffix (TrimSpace buffer) "\n" = "" := by
      by_contra hne
      exact hq ((strLen_pos_iff _).mpr hne)
    rw [he] at hq
    cases viewFound <;> simp [filterEnterHandler, hq, he]

set_option maxRecDepth 100000 in
/-- Witness of C3: scenario B of the specification (the filter `db1` keeps the
first connection) and a buffer of white space only (the filter is cleared). -/
theorem commit_filter_state_witness :
    ((filterEnterHandler hostFilter { initState [db1, db2] with selectedIndex := 1 }
        "db1\n" none true none).1.filteredConnections = [db1] ∧
      (filterEnterHandler hostFilter { initState [db1, db2] with selectedIndex := 1 }
        "db1\n" none true none).1.filteredConnections
        = hostFilter [db1, db2]
            (filterEnterHandler hostFilter { initState [db1, db2] with selectedIndex := 1 }
              "db1\n" none true none).1.filter) ∧
      (filterEnterHandler hostFilter
        { initState [db1, db2] with filteredConnections := [db1], filter := "db1" }
        " \n" none true none).1.filteredConnections = [db1, db2] :=
  ⟨⟨by decide,
      (commit_filter_state hostFilter { initState [db1, db2] with selectedIndex := 1 }
        "db1\n" true none).2.1 (by decide)⟩,
    (commit_filter_state hostFilter
      { initState [db1, db2] with filteredConnections := [db1], filter := "db1" }
      " \n" true none).2.2.1 (by decide)⟩

/-- C4, reload preserves the filter. When the load succeeds with the list
`loaded`, the reload handler sets `connections` to `loaded`, keeps the filter
text, sets `filteredConnections` to `GetFilteredConnections(loaded, filter)` when
the filter text is non-empty and to `loaded` otherwise, and sets `selectedIndex`
to 0; `connectOnExit` is unchanged and the handler returns what `v.SetCursor`
returns. -/
theorem reload_success_state (gfc : List Connection → String → List Connection)
    (s : State) (loaded : List Connection) (cursorErr : Option GoError) :
    (rHandler gfc s loaded none cursorErr).1.connections = loaded ∧
      (rHandler gfc s loaded none cursorErr).1.filter = s.filter ∧
      (s.filter ≠ "" →
        (rHandler gfc s loaded none cursorErr).1.filteredConnections
          = gfc loaded s.filter) ∧
      (s.filter = "" →
        (rHandler gfc s loaded none cursorErr).1.filteredConnections = loaded) ∧
      (rHandler gfc s loaded none cursorErr).1.selectedIndex = 0 ∧
      (rHandler gfc s loaded none cursorErr).1.connectOnExit = s.connectOnExit ∧
      (rHandler gfc s loaded none cursorErr).2 = Ret.ofError cursorErr := by
  by_cases hq : 0 < strLen s.filter
  · have hne : s.filter ≠ "" := (strLen_pos_iff _).mp hq
    simp [rHandler, hq, hne]
  · have he : s.filter = "" := by
      by_contra hne
      exact hq ((strLen_pos_iff _).mpr hne)
    rw [he] at hq
    simp [rHandler, hq, he]

set_option maxRecDepth 100000 in
/-- Witness of C4: a reload under the filter `db2`, and one under no filter. -/
theorem reload_success_state_witness :
    (rHandler hostFilter
        { initState [db1, db2] with
            filteredConnections := [db2], selectedIndex := 0, filter := "db2" }
        [db2, db1, db2] none none).1.filteredConnections
        = hostFilter [db2, db1, db2] "db2" ∧
      (rHandler hostFilter { initState [db1, db2] with selectedIndex := 1 }
        [db2] none none).1.filteredConnections = [db2] :=
  ⟨(reload_success_state hostFilter
      { initState [db1, db2] with
          filteredConnections := [db2], selectedIndex := 0, filter := "db2" }
      [db2, db1, db2] none).2.2.1 (by decide),
    (reload_success_state hostFilter { initState [db1, db2] with selectedIndex := 1 }
      [db2] none).2.2.2.1 (by decide)⟩

/-- C5 as stated fails: a failed load that returns no connections alongside its
error empties `connections`, so the state after the handler is not the state
before it. -/
theorem reload_failure_not_atomic :
    (rHandler hostFilter (initState [db1, db2]) []
        (some (GoError.other "open .pgpass: no such file")) none).1.connections = [] ∧
      (rHandler hostFilter (initState [db1, db2]) []
        (some (GoError.other "open .pgpass: no such file")) none).1
        ≠ initState [db1, db2] := by
  decide

/-- C5 amended. When the load fails, the reload handler leaves
`filteredConnections`, the filter text, `selectedIndex` and `connectOnExit`
unchanged and returns the load error; `connections` becomes the value the failed
load returned alongside its error. -/
theorem reload_failure_state (gfc : List Connection → String → List Connection)
    (s : State) (loaded : List Connection) (e : GoError) (cursorErr : Option GoError) :
    (rHandler gfc s loaded (some e) cursorErr).1.filteredConnections
        = s.filteredConnections ∧
      (rHandler gfc s loaded (some e) cursorErr).1.filter = s.filter ∧
      (rHandler gfc s loaded (some e) cursorErr).1.selectedIndex = s.selectedIndex ∧
      (rHandler gfc s loaded (some e) cursorErr).1.connectOnExit = s.connectOnExit ∧
      (rHandler gfc s loaded (some e) cursorErr).1.connections = loaded ∧
      (rHandler gfc s loaded (some e) cursorErr).2 = Ret.err e :=
  ⟨rfl, rfl, rfl, rfl, rfl, rfl⟩

/-- C6 as stated fails: a failed load during reload is handed to the event loop,
which stops, and `main` takes its fatal branch. -/
theorem reload_failure_is_fatal :
    (rHandler hostFilter (initState [db1, db2]) []
        (some (GoError.other "open .pgpass: no such file")) none).2
        = Ret.err (GoError.other "open .pgpass: no such file") ∧
      main hostFilter [db1, db2] none none ⟨none, none, none, none, none, none, none, none, none⟩
        [Event.keyR [] (some (GoError.other "open .pgpass: no such file")) none,
         Event.arrowDown]
        = Exit.fatal "failed to run the mainloop"
            (GoError.other "open .pgpass: no such file") := by
  decide

/-- C6 amended. When the load performed by the reload handler fails with the
error `e`, the handler returns `e`, the event loop stops with `e` without running
any later callback, and `main` takes its fatal branch "failed to run the
mainloop" unless `e` is `gocui.ErrQuit`. -/
theorem reload_failure_stops_session (gfc : List Connection → String → List Connection)
    (s : State) (loaded : List Connection) (e : GoError) (cursorErr : Option GoError)
    (rest : List Event) :
    (rHandler gfc s loaded (some e) cursorErr).2 = Ret.err e ∧
      MainLoop gfc s (Event.keyR loaded (some e) cursorErr :: rest)
        = ({ s with connections := loaded }, Ret.err e) ∧
      (e ≠ GoError.ErrQuit →
        ∀ (first : List Connection) (keys : KeyResults) (pre : List Event),
          keybindings keys = none →
          MainLoop gfc (initState first) pre = (s, Ret.nil) →
          main gfc first none none keys (pre ++ Event.keyR loaded (some e) cursorErr :: rest)
            = Exit.fatal "failed to run the mainloop" e) := by
  have hstop : MainLoop gfc s (Event.keyR loaded (some e) cursorErr :: rest)
      = ({ s with connections := loaded }, Ret.err e) :=
    MainLoop_cons_stop gfc s _ _ _ rest rfl (by simp)
  refine ⟨rfl, hstop, ?_⟩
  intro hne first keys pre hk hpre
  have hrun := MainLoop_append gfc pre (initState first) s
    (Event.keyR loaded (some e) cursorErr :: rest) hpre
  rw [hstop] at hrun
  simp [main, hk, hrun, afterMainLoop, hne]

/-- Witness of C6 amended: a failed reload after one key press is fatal. -/
theorem reload_failure_stops_session_witness :
    main hostFilter [db1, db2] none none ⟨none, none, none, none, none, none, none, none, none⟩
        ([Event.keyJ] ++
          Event.keyR [] (some (GoError.other "permission denied")) none :: [Event.enter])
        = Exit.fatal "failed to run the mainloop" (GoError.other "permission denied") :=
  (reload_failure_stops_session hostFilter { initState [db1, db2] with selectedIndex := 1 }
    [] (GoError.other "permission denied") none [Event.enter]).2.2 (by decide)
    [db1, db2] ⟨none, none, none, none, none, none, none, none, none⟩ [Event.keyJ]
    (by decide) (by decide)

/-- C7, confirm selection. The Enter handler returns the quit signal exactly when
`filteredConnections` is non-empty. On a non-empty list it sets `connectOnExit`
to true, returns the quit signal and the event loop stops there; on an empty list
it returns nil, leaves every variable as it was, and the event loop goes on. -/
theorem confirm_selection (s : State) :
    ((enterHandler s).2 = Ret.err GoError.ErrQuit ↔ 0 < s.filteredConnections.length) ∧
      (0 < s.filteredConnections.length →
        enterHandler s = ({ s with connectOnExit := true }, Ret.err GoError.ErrQuit) ∧
        ∀ (gfc : List Connection → String → List Connection) (rest : List Event),
          MainLoop gfc s (Event.enter :: rest)
            = ({ s with connectOnExit := true }, Ret.err GoError.ErrQuit)) ∧
      (s.filteredConnections.length = 0 →
        enterHandler s = (s, Ret.nil) ∧
        ∀ (gfc : List Connection → String → List Connection) (rest : List Event),
          MainLoop gfc s (Event.enter :: rest) = MainLoop gfc s rest) := by
  by_cases h0 : 0 < s.filteredConnections.length
  · have hh : enterHandler s = ({ s with connectOnExit := true }, Ret.err GoError.ErrQuit) := by
      simp [enterHandler, h0]
    refine ⟨by simp [hh, h0], fun _ => ⟨hh, ?_⟩, fun hz => absurd hz (by omega)⟩
    intro gfc rest
    exact MainLoop_cons_stop gfc s _ _ Event.enter rest hh (by simp)
  · have hh : enterHandler s = (s, Ret.nil) := by simp [enterHandler, h0]
    refine ⟨by simp [hh, h0], fun hp => absurd hp h0, fun _ => ⟨hh, ?_⟩⟩
    intro gfc rest
    exact MainLoop_cons_nil gfc s s Event.enter rest hh

set_option maxRecDepth 100000 in
/-- Witness of C7: Enter on two connections ends the session; Enter after the
filter `zzz` has emptied the list does nothing (scenario D of the specification),
and the later Ctrl-C ends the session without a connection. -/
theorem confirm_selection_witness :
    (enterHandler (initState [db1, db2])
        = ({ initState [db1, db2] with connectOnExit := true }, Ret.err GoError.ErrQuit) ∧
      ∀ (gfc : List Connection → String → List Connection) (rest : List Event),
        MainLoop gfc (initState [db1, db2]) (Event.enter :: rest)
          = ({ initState [db1, db2] with connectOnExit := true },
              Ret.err GoError.ErrQuit)) ∧
      (enterHandler { initState [db1, db2] with filteredConnections := [], filter := "zzz" }
        = ({ initState [db1, db2] with filteredConnections := [], filter := "zzz" },
            Ret.nil) ∧
      ∀ (gfc : List Connection → String → List Connection) (rest : List Event),
        MainLoop gfc { initState [db1, db2] with filteredConnections := [], filter := "zzz" }
            (Event.enter :: rest)
          = MainLoop gfc
              { initState [db1, db2] with filteredConnections := [], filter := "zzz" }
              rest) ∧
      main hostFilter [db1, db2] none none
          ⟨none, none, none, none, none, none, none, none, none⟩
          [Event.filterEnter "zzz\n" none true none, Event.enter, Event.ctrlC]
        = Exit.silent :=
  ⟨(confirm_selection (initState [db1, db2])).2.1 (by decide),
    (confirm_selection
      { initState [db1, db2] with filteredConnections := [], filter := "zzz" }).2.2
      (by decide),
    by decide⟩

/-- C8 fails on the code: on an empty `filteredConnections` with the cursor at 0
(an empty credentials file, or a filter that matches nothing) both move-down
handlers set `selectedIndex` to 1, and a second key press to 2, where the claim
keeps it at 0: the guard `selectedIndex != len(filteredConnections)-1` compares
0 with -1. -/
theorem move_down_on_empty_list :
    arrowDownHandler (initState []) = ({ initState [] with selectedIndex := 1 }, Ret.nil) ∧
      jHandler (initState []) = ({ initState [] with selectedIndex := 1 }, Ret.nil) ∧
      specMoveDown ((initState []).filteredConnections.length) (initState []).selectedIndex
        = 0 ∧
      MainLoop hostFilter (initState [db1, db2])
          [Event.filterEnter "zzz\n" none true none, Event.keyJ, Event.arrowDown]
        = ({ initState [db1, db2] with
              filteredConnections := [], selectedIndex := 2, filter := "zzz" },
            Ret.nil) := by
  decide

/-- On a state whose cursor is not past the last element, the move-down handlers
do what the specification says. -/
theorem moveDown_agrees_in_range (s : State) (hf : SliceLen s.filteredConnections)
    (hhi : s.selectedIndex ≤ (s.filteredConnections.length : Int) - 1)
    (hlo : -(maxInt + 1) ≤ s.selectedIndex) :
    (arrowDownHandler s).1.selectedIndex
        = specMoveDown s.filteredConnections.length s.selectedIndex ∧
      (jHandler s).1.selectedIndex
        = specMoveDown s.filteredConnections.length s.selectedIndex := by
  have hf2 : (s.filteredConnections.length : Int) ≤ maxInt := hf
  by_cases h0 : s.selectedIndex = (s.filteredConnections.length : Int) - 1
  · have hn : ¬ (s.selectedIndex + 1 < (s.filteredConnections.length : Int)) := by omega
    simp [arrowDownHandler, jHandler, specMoveDown, h0]
  · have hn : s.selectedIndex + 1 < (s.filteredConnections.length : Int) := by omega
    have hw : wrapInt (s.selectedIndex + 1) = s.selectedIndex + 1 :=
      wrapInt_eq_self _ (by omega) (by omega)
    simp [arrowDownHandler, jHandler, specMoveDown, h0, hn, hw]

/-- The filter text after a commit whose `g.DeleteView` succeeded. -/
theorem filterEnterHandler_filter (gfc : List Connection → String → List Connection)
    (s : State) (buffer : String) (viewFound : Bool) (cursorErr : Option GoError) :
    (filterEnterHandler gfc s buffer none viewFound cursorErr).1.filter
      = TrimSuffix (TrimSpace buffer) "\n" := by
  by_cases hq : 0 < strLen (TrimSuffix (TrimSpace buffer) "\n") <;> cases viewFound <;>
    simp [filterEnterHandler, hq]

theorem rdropWhile_append_rtakeWhile (p : Char → Bool) (l : List Char) :
    l.rdropWhile p ++ l.rtakeWhile p = l := by
  rw [List.rdropWhile, List.rtakeWhile, ← List.reverse_append,
    List.takeWhile_append_dropWhile, List.reverse_reverse]

/-- What `TrimSpace` returns: the buffer is white space, then the result, then
white space, and the result neither starts nor ends with white space. -/
theorem TrimSpace_spec (buffer : String) :
    ∃ lead trail : List Char,
      buffer.data = lead ++ (TrimSpace buffer).data ++ trail ∧
      (∀ c ∈ lead, isSpace c = true) ∧
      (∀ c ∈ trail, isSpace c = true) ∧
      (∀ c, (TrimSpace buffer).data.head? = some c → isSpace c = false) ∧
      (∀ c, (TrimSpace buffer).data.getLast? = some c → isSpace c = false) := by
  refine ⟨buffer.data.takeWhile isSpace,
    (buffer.data.dropWhile isSpace).rtakeWhile isSpace, ?_, ?_, ?_, ?_, ?_⟩
  · show buffer.data = buffer.data.takeWhile isSpace
        ++ (buffer.data.dropWhile isSpace).rdropWhile isSpace
        ++ (buffer.data.dropWhile isSpace).rtakeWhile isSpace
    rw [List.append_assoc, rdropWhile_append_rtakeWhile, List.takeWhile_append_dropWhile]
  · intro c hc
    exact List.mem_takeWhile_imp hc
  · intro c hc
    exact List.mem_rtakeWhile_imp hc
  · intro c hc
    have hc1 : ((buffer.data.dropWhile isSpace).rdropWhile isSpace).head? = some c := hc
    obtain ⟨t, ht⟩ := List.rdropWhile_prefix isSpace (l := buffer.data.dropWhile isSpace)
    have hhead : (buffer.data.dropWhile isSpace).head? = some c := by
      rw [← ht]
      cases hx : (buffer.data.dropWhile isSpace).rdropWhile isSpace with
      | nil => rw [hx] at hc1; simp at hc1
      | cons a as => rw [hx] at hc1; simpa using hc1
    have hnot := List.head?_dropWhile_not isSpace buffer.data
    rw [hhead] at hnot
    simpa using hnot
  · intro c hc
    have hc1 : ((buffer.data.dropWhile isSpace).rdropWhile isSpace).getLast? = some c := hc
    have hne : (buffer.data.dropWhile isSpace).rdropWhile isSpace ≠ [] := by
      intro h0
      rw [h0] at hc1
      simp at hc1
    have hlast := List.rdropWhile_last_not isSpace (buffer.data.dropWhile isSpace) hne
    rw [List.getLast?_eq_getLast _ hne] at hc1
    have hce : ((buffer.data.dropWhile isSpace).rdropWhile isSpace).getLast hne = c := by
      simpa using hc1
    rw [hce] at hlast
    simpa using hlast

set_option maxRecDepth 100000 in
/-- C9 as stated fails: for the buffer `" db1\n"` the stored filter text is
`"db1"`, while the buffer without its trailing white space is `" db1"`; the
leading blank is not preserved. -/
theorem filter_trim_drops_leading_space :
    (filterEnterHandler hostFilter (initState [db1, db2]) " db1\n" none true none).1.filter
        = "db1" ∧
      specTrimTrailing " db1\n" = " db1" ∧
      ¬ ∀ buffer : String,
        (filterEnterHandler hostFilter (initState [db1, db2]) buffer none true none).1.filter
          = specTrimTrailing buffer := by
  refine ⟨by decide, by decide, ?_⟩
  intro h
  exact absurd (h " db1\n") (by decide)

/-- C9 amended. The filter text stored by the commit-filter handler is the buffer
without its leading and without its trailing white space (newlines included): the
buffer is a run of white space, then the stored text, then a run of white space,
and the stored text neither starts nor ends with white space; every other
character of the buffer is kept, in order. -/
theorem filter_text_trimmed_both_ends (gfc : List Connection → String → List Connection)
    (s : State) (buffer : String) (viewFound : Bool) (cursorErr : Option GoError) :
    ∃ lead trail : List Char,
      buffer.data = lead
        ++ (filterEnterHandler gfc s buffer none viewFound cursorErr).1.filter.data
        ++ trail ∧
      (∀ c ∈ lead, isSpace c = true) ∧
      (∀ c ∈ trail, isSpace c = true) ∧
      (∀ c, (filterEnterHandler gfc s buffer none viewFound cursorErr).1.filter.data.head?
          = some c → isSpace c = false) ∧
      (∀ c, (filterEnterHandler gfc s buffer none viewFound cursorErr).1.filter.data.getLast?
          = some c → isSpace c = false) := by
  have hf : (filterEnterHandler gfc s buffer none viewFound cursorErr).1.filter
      = TrimSpace buffer := by
    rw [filterEnterHandler_filter, TrimSuffix_TrimSpace]
  rw [hf]
  exact TrimSpace_spec buffer

set_option maxRecDepth 100000 in
/-- Witness of C9 amended: the buffer `"  db 1 \t\n"` is stored as `"db 1"`, the
blank inside it kept. -/
theorem filter_text_trimmed_both_ends_witness :
    (filterEnterHandler hostFilter (initState [db1, db2]) "  db 1 \t\n" none true
        none).1.filter = "db 1" ∧
      ∃ lead trail : List Char,
        "  db 1 \t\n".data = lead
          ++ (filterEnterHandler hostFilter (initState [db1, db2]) "  db 1 \t\n" none true
              none).1.filter.data
          ++ trail ∧
        (∀ c ∈ lead, isSpace c = true) ∧
        (∀ c ∈ trail, isSpace c = true) ∧
        (∀ c, (filterEnterHandler hostFilter (initState [db1, db2]) "  db 1 \t\n" none true
            none).1.filter.data.head? = some c → isSpace c = false) ∧
        (∀ c, (filterEnterHandler hostFilter (initState [db1, db2]) "  db 1 \t\n" none true
            none).1.filter.data.getLast? = some c → isSpace c = false) :=
  ⟨by decide,
    filter_text_trimmed_both_ends hostFilter (initState [db1, db2]) "  db 1 \t\n" true none⟩

/-- C10 as stated fails. The claim ranges over every combination of results of
the nine registrations; for the combination in which the first registration
returns an error and the other eight return nil, `keybindings` returns nil and
`main` goes on to the event loop instead of taking its fatal branch "failed to
setup keybindings". (The nine calls of the source pass `gocui.Key` constants and
rune literals as keys, so this combination is one of the claim, not one a run of
the program produces.) -/
theorem keybindings_drops_early_errors :
    keybindings ⟨some (GoError.other "unknown type"), none, none, none, none, none, none,
        none, none⟩ = none ∧
      main hostFilter [db1, db2] none none
          ⟨some (GoError.other "unknown type"), none, none, none, none, none, none, none,
            none⟩ [Event.keyJ]
        = Exit.waiting ∧
      ¬ ∀ r : KeyResults,
        (r.ctrlC ≠ none ∨ r.arrowUp ≠ none ∨ r.keyK ≠ none ∨ r.arrowDown ≠ none ∨
          r.keyJ ≠ none ∨ r.keyF ≠ none ∨ r.enter ≠ none ∨ r.keyR ≠ none ∨
          r.filterEnter ≠ none) →
        keybindings r ≠ none := by
  refine ⟨by decide, by decide, ?_⟩
  intro h
  exact h ⟨some (GoError.other "unknown type"), none, none, none, none, none, none, none,
    none⟩ (Or.inl (by simp)) rfl

/-- C10 amended. For every combination of results of the nine registrations, if
the last registration (Enter in the filter view) returns an error, `keybindings`
returns that error and `main` takes its fatal branch "failed to setup
keybindings" with it, whatever the events; and an error returned by
`keybindings` is that of a failed registration, the last one. -/
theorem keybindings_propagates_last_error (r : KeyResults) :
    (∀ e : GoError, r.filterEnter = some e →
        keybindings r = some e ∧
        ∀ (gfc : List Connection → String → List Connection) (loaded : List Connection)
          (evs : List Event),
          main gfc loaded none none r evs = Exit.fatal "failed to setup keybindings" e) ∧
      (∀ e : GoError, keybindings r = some e → r.filterEnter = some e) := by
  refine ⟨?_, fun e h => h⟩
  intro e he
  have hk : keybindings r = some e := he
  refine ⟨hk, ?_⟩
  intro gfc loaded evs
  simp [main, hk]

/-- Witness of C10 amended: the first and the last registration fail; the error
of the last one is returned and is fatal. -/
theorem keybindings_propagates_last_error_witness :
    keybindings ⟨some (GoError.other "first"), none, none, none, none, none, none, none,
        some (GoError.other "last")⟩ = some (GoError.other "last") ∧
      ∀ (gfc : List Connection → String → List Connection) (loaded : List Connection)
        (evs : List Event),
        main gfc loaded none none
            ⟨some (GoError.other "first"), none, none, none, none, none, none, none,
              some (GoError.other "last")⟩ evs
          = Exit.fatal "failed to setup keybindings" (GoError.other "last") :=
  (keybindings_propagates_last_error
    ⟨some (GoError.other "first"), none, none, none, none, none, none, none,
      some (GoError.other "last")⟩).1 (GoError.other "last") rfl

end Psqlconnect
